import Mathlib

/-!
Verification development for the multi-agent orchestration substrate
(coreagents / registry).  The Lean definitions below are shallow embeddings
of the Python source files:

  * `coreagents/model/protocol.py`          (Message, Header, Conversation)
  * `coreagents/utils/protocol_utils.py`    (envelope serialization)
  * `coreagents/model/vo.py`                (AgentVO, SwarmVO)
  * `coreagents/agent/helper/swarm_master_helper.py`
  * `coreagents/agent/oai/swarm_master.py`  (orchestrator state machine)
  * `coreagents/agent/oai/oai_raci_agent.py` (completion retry loop)
  * `coreagents/agent/helper/oai/agent_tools_helper.py`
  * `coreagents/agent/raci_agent.py`        (RedisHandler)
  * `registry/agent/main.py`                (swarm structure validation)

Modelling conventions:
  * Python numeric timestamps (`datetime.now().timestamp()`, a float) are
    opaque values in every code path of interest: they are only stored and
    copied, never compared or computed with.  They are modelled as `Nat`.
    Calls to `datetime.now()` are modelled by an explicit `now` parameter.
  * Python `Optional[T]` is `Option T`; a `raise` is the `.error`
    constructor of `Except`.
  * Python dicts produced/consumed by `to_dict` / `from_dict` are modelled
    as structures whose fields are `Option`-wrapped: `none` means "key
    absent", so `dict.get(k, d)` becomes `Option.getD`.
  * The LLM completion capability is an external collaborator; it is
    modelled as an oracle parameter (one reply per call).
-/

namespace CoreAgents

/-- Opaque numeric timestamp (Python float `datetime.timestamp()` values are
only stored and copied by the embedded code, never inspected). -/
abbrev Timestamp := Nat

/-- Python `str.lower()`.  Every string it is applied to in the embedded
code (RACI role codes) is ASCII, where per-character lowering coincides with
Python's semantics.  Defined over the character list so the kernel can
evaluate it. -/
def pyLower (s : String) : String := ⟨s.data.map Char.toLower⟩

/-- Python `str.upper()` (applied to ASCII HTTP method names), likewise
kernel-evaluable. -/
def pyUpper (s : String) : String := ⟨s.data.map Char.toUpper⟩

/-! ## `coreagents/model/protocol.py` -/

/-- `protocol.Message`.  `pending_user_reply` is tri-state in the source
(`from_dict` defaults it to `None`), hence `Option Bool`; `datetime_value`
holds a numeric timestamp. -/
structure Message where
  content : String
  role : String
  name : Option String
  pending_user_reply : Option Bool
  datetime_value : Timestamp
  deriving DecidableEq, Repr

/-- `protocol.Header`. -/
structure Header where
  user_id : String
  conversation_id : String
  sender : String
  deriving DecidableEq, Repr

/-- `protocol.Conversation`: a header plus the ordered message list. -/
structure Conversation where
  header : Header
  messages : List Message
  deriving DecidableEq, Repr

/-- The dictionary shape produced/consumed by `Message.to_dict` /
`Message.from_dict`.  An outer `none` models an absent key; for the `name`
and `pending_user_reply` keys the stored value may itself be null/None. -/
structure MessageDict where
  content : Option String
  role : Option String
  name : Option (Option String)
  pending_user_reply : Option (Option Bool)
  datetime_value : Option Timestamp
  deriving DecidableEq, Repr

/-- `Message.to_dict`: every key is emitted with the field's current value. -/
def Message.to_dict (m : Message) : MessageDict :=
  { content := some m.content
    role := some m.role
    name := some m.name
    pending_user_reply := some m.pending_user_reply
    datetime_value := some m.datetime_value }

/-- `Message.from_dict`: `data.get(key, default)` with defaults `""`, `""`,
`None`, `None`, `datetime.now().timestamp()` (= the `now` parameter). -/
def Message.from_dict (now : Timestamp) (data : MessageDict) : Message :=
  { content := data.content.getD ""
    role := data.role.getD ""
    name := data.name.getD none
    pending_user_reply := data.pending_user_reply.getD none
    datetime_value := data.datetime_value.getD now }

/-- The dictionary shape of `Header.to_dict` / `Header.from_dict`. -/
structure HeaderDict where
  user_id : Option String
  conversation_id : Option String
  sender : Option String
  deriving DecidableEq, Repr

/-- `Header.to_dict`. -/
def Header.to_dict (h : Header) : HeaderDict :=
  { user_id := some h.user_id
    conversation_id := some h.conversation_id
    sender := some h.sender }

/-- `Header.from_dict`: `data.get(key, "")` for each key. -/
def Header.from_dict (data : HeaderDict) : Header :=
  { user_id := data.user_id.getD ""
    conversation_id := data.conversation_id.getD ""
    sender := data.sender.getD "" }

/-! ## `coreagents/utils/protocol_utils.py` -/

/-- The envelope dictionary built by `to_dict_conversation` and indexed by
`to_conversation_from_dict` (both the `"header"` and `"messages"` keys are
always present in every dict the code constructs; `to_conversation_from_dict`
indexes them unconditionally). -/
structure ConversationDict where
  header : HeaderDict
  messages : List MessageDict
  deriving DecidableEq, Repr

/-- `protocol_utils.to_dict_messages`: the append loop over `messages`. -/
def to_dict_messages (messages : List Message) : List MessageDict :=
  messages.map Message.to_dict

/-- `protocol_utils.to_messages_from_dict`: the append loop over the dicts. -/
def to_messages_from_dict (now : Timestamp) (messages_dict : List MessageDict) :
    List Message :=
  messages_dict.map (Message.from_dict now)

/-- `protocol_utils.to_dict_conversation`.  (The source guards
`conversation.messages is not None`; in the typed model `messages` is always
a list, so the guard's else-branch `[]` is unreachable.) -/
def to_dict_conversation (conversation : Conversation) : ConversationDict :=
  { header := conversation.header.to_dict
    messages := to_dict_messages conversation.messages }

/-- `protocol_utils.to_conversation_from_dict`. -/
def to_conversation_from_dict (now : Timestamp) (conversation_dict : ConversationDict) :
    Conversation :=
  { header := Header.from_dict conversation_dict.header
    messages := to_messages_from_dict now conversation_dict.messages }

/-! ## `coreagents/model/vo.py` -/

/-- `vo.AgentVO`.  The `randomness : float` field is never read by any code
path modelled here and floating point is outside the embedding, so it is
omitted; all other fields are carried. -/
structure AgentVO where
  identifier : String
  raci_role : String
  agent_type : String
  agent_description : String
  goals : String
  tools : List String
  rag_enabled : Bool
  model : String
  deriving DecidableEq, Repr

/-- `vo.SwarmVO`. -/
structure SwarmVO where
  identifier : String
  swarm_type : String
  agents : List AgentVO
  deriving DecidableEq, Repr

/-! ## `coreagents/agent/helper/swarm_master_helper.py` -/

/-- `swarm_master_helper.identify_single_role_agent`.  The Python scans the
list counting agents whose `raci_role.lower()` equals the requested role and
remembering the last such agent, then raises `ValueError` when the count is
zero or exceeds one.  A raise is modelled as `Except.error`.  (The final
`none` branch is unreachable: a count of one implies an agent was stored.) -/
def identify_scan (agent_vos : List AgentVO) (raci_role : String) :
    Nat × Option AgentVO :=
  agent_vos.foldl
    (fun (acc : Nat × Option AgentVO) agent_vo =>
      if pyLower agent_vo.raci_role == raci_role then (acc.1 + 1, some agent_vo)
      else acc)
    (0, none)

/-- The raise/return tail of `identify_single_role_agent`. -/
def identify_single_role_agent (agent_vos : List AgentVO) (raci_role : String) :
    Except String AgentVO :=
  let scan := identify_scan agent_vos raci_role
  if scan.1 == 0 then .error "ValueError: No accountable agents found"
  else if scan.1 > 1 then .error "ValueError: More than one accountable agents found"
  else
    match scan.2 with
    | some found_agent_vo => .ok found_agent_vo
    | none => .error "unreachable: positive count stores an agent"

/-- One iteration of the content loop in
`swarm_master_helper.compose_initial_system_message`: the identifier entry,
the optional description (with `.`-aware punctuation) and the optional goals
(with `.`-aware punctuation and trailing newline). -/
def compose_initial_agent_entry (agent_vo : AgentVO) : String :=
  let c1 := " - " ++ agent_vo.identifier ++ ": "
  let c2 :=
    if agent_vo.agent_description ≠ "" then
      c1 ++ " - " ++ agent_vo.agent_description ++
        (if agent_vo.agent_description.endsWith "." then " " else ". ")
    else c1
  if agent_vo.goals ≠ "" then
    c2 ++ " - " ++ agent_vo.goals ++
      (if agent_vo.goals.endsWith "." then "\n" else ".\n")
  else c2

/-- `swarm_master_helper.compose_initial_system_message`: the framing system
message appended by the orchestrator (its `datetime_value` comes from
`datetime.now().timestamp()`, the `now` parameter here). -/
def compose_initial_system_message (now : Timestamp) (swarm_name : String)
    (agent_vos : List AgentVO) : Message :=
  { content := agent_vos.foldl
      (fun content agent_vo => content ++ compose_initial_agent_entry agent_vo)
      "You are in a role play game. The following roles are available:\n"
    role := "system"
    name := some swarm_name
    pending_user_reply := some false
    datetime_value := now }

/-- The enumeration loop body of
`swarm_master_helper.compose_next_agent_message_content`: agents whose
identifier equals `previous_agent` are skipped ("agent cannot reply two
consecutive times"); the `first_agent` flag controls the comma separator. -/
def compose_next_agent_body :
    List AgentVO → String → Bool → String
  | [], _, _ => ""
  | agent_vo :: rest, previous_agent, first_agent =>
    if agent_vo.identifier == previous_agent then
      compose_next_agent_body rest previous_agent first_agent
    else
      (if first_agent then agent_vo.identifier else ", " ++ agent_vo.identifier)
        ++ compose_next_agent_body rest previous_agent false

/-- The fixed prefix of the next-agent selection prompt. -/
def next_agent_prompt_head : String :=
  "Read the above conversation. Then select the next role to play from the following list: "

/-- The fixed tail of the next-agent selection prompt. -/
def next_agent_prompt_tail : String :=
  ". Respond with ONLY the name of the role and DO NOT provide a reason."

/-- `swarm_master_helper.compose_next_agent_message_content`. -/
def compose_next_agent_message_content (agent_vos : List AgentVO)
    (previous_agent : String) : String :=
  next_agent_prompt_head ++ compose_next_agent_body agent_vos previous_agent true
    ++ next_agent_prompt_tail

/-- The candidate identifiers enumerated by the prompt loop: every agent
identifier except `previous_agent`, in list order. -/
def next_agent_candidates (agent_vos : List AgentVO) (previous_agent : String) :
    List String :=
  (agent_vos.filter (fun agent_vo => agent_vo.identifier != previous_agent)).map
    AgentVO.identifier

/-- Comma-joined continuation of an identifier enumeration (each element is
preceded by `", "`). -/
def join_comma_rest (ids : List String) : String :=
  ids.foldr (fun id acc => ", " ++ id ++ acc) ""

/-- Comma-separated identifier enumeration, as the prompt loop renders it. -/
def join_comma : List String → String
  | [] => ""
  | id :: rest => id ++ join_comma_rest rest

/-- The selection prompt rendered from an explicit candidate list. -/
def prompt_of_candidates (ids : List String) : String :=
  next_agent_prompt_head ++ join_comma ids ++ next_agent_prompt_tail

/-! ## `registry/agent/main.py` swarm structure validation -/

/-- The counting loop of `_is_valid_swarm_vo_structure`:
`(total_responsible, total_accountable)` accumulated over the agents with
the source's `if role == "r" / elif role == "a"` chain (case-insensitive). -/
def swarm_role_totals (agents : List AgentVO) : Nat × Nat :=
  agents.foldl
    (fun totals agent_vo =>
      if pyLower agent_vo.raci_role == "r" then (totals.1 + 1, totals.2)
      else if pyLower agent_vo.raci_role == "a" then (totals.1, totals.2 + 1)
      else totals)
    (0, 0)

/-- `registry/agent/main._is_valid_swarm_vo_structure`: the swarm structure
is valid unless one of the four error branches fires. -/
def is_valid_swarm_vo_structure (swarm_vo : SwarmVO) : Bool :=
  let totals := swarm_role_totals swarm_vo.agents
  if totals.1 == 0 then false
  else if totals.2 == 0 then false
  else if totals.2 > 1 then false
  else if totals.1 > 1 then false
  else true

/-- Number of agents carrying a given RACI role, case-insensitively (the
notion both the registry validator and `identify_single_role_agent` count). -/
def count_role (agents : List AgentVO) (role : String) : Nat :=
  (agents.filter (fun agent_vo => pyLower agent_vo.raci_role == role)).length

/-! ## `coreagents/agent/oai/swarm_master.py` -/

/-- Orchestrator state: the constructor arguments plus the fields assigned in
`SwarmMaster.__init__` (`responsible_agent` / `accountable_agent` hold the
results of the two `identify_single_role_agent` calls; `proxy` starts `None`
and is process-lifetime state). -/
structure SwarmMaster where
  name : String
  agent_vos : List AgentVO
  responsible_agent : AgentVO
  accountable_agent : AgentVO
  proxy : Option String
  deriving DecidableEq, Repr

/-- `SwarmMaster.__init__`: propagates the `ValueError` of
`identify_single_role_agent` when the role cardinality is wrong. -/
def SwarmMaster.init (name : String) (agent_vos : List AgentVO) :
    Except String SwarmMaster := do
  let responsible ← identify_single_role_agent agent_vos "r"
  let accountable ← identify_single_role_agent agent_vos "a"
  .ok { name := name
        agent_vos := agent_vos
        responsible_agent := responsible
        accountable_agent := accountable
        proxy := none }

/-- The early-exit membership scan of `SwarmMaster._is_in_agents_list`. -/
def is_in_agents_list_scan : List AgentVO → String → Bool
  | [], _ => false
  | agent_vo :: rest, agent_to_validate =>
    if agent_to_validate == agent_vo.identifier then true
    else is_in_agents_list_scan rest agent_to_validate

/-- `SwarmMaster._is_in_agents_list`. -/
def SwarmMaster.is_in_agents_list (sm : SwarmMaster) (agent_to_validate : String) :
    Bool :=
  is_in_agents_list_scan sm.agent_vos agent_to_validate

/-- The narrowing filter of `SwarmMaster._complete_next_agent` when
`exclude_previous_agents` is set: drop every agent whose identifier occurs
as the `name` of any message in the conversation history
(`agent_vo.identifier not in [msg.name for msg in messages]`). -/
def SwarmMaster.agent_vos_filtered (sm : SwarmMaster) (messages : List Message) :
    List AgentVO :=
  sm.agent_vos.filter
    (fun agent_vo => !((messages.map Message.name).contains (some agent_vo.identifier)))

/-- The prompt content `SwarmMaster._complete_next_agent` appends as the
final system message of the LLM request. -/
def SwarmMaster.complete_next_agent_content (sm : SwarmMaster)
    (previous_agent : String) (messages : List Message)
    (exclude_previous_agents : Bool) : String :=
  if exclude_previous_agents then
    compose_next_agent_message_content (sm.agent_vos_filtered messages) previous_agent
  else
    compose_next_agent_message_content sm.agent_vos previous_agent

/-- The `while not agent_identified and retries < 5` loop of
`SwarmMaster._identify_next_agent`.  The LLM completion capability is an
external collaborator; `llm k` is the raw reply text of the `k`-th call of
this selection loop (the loop passes `exclude_previous_agents = (retries > 0)`
to `_complete_next_agent`).  The result pairs the identified agent (if any)
with the prompt contents submitted, one per attempt; `fuel` is the remaining
iteration budget `5 - retries`. -/
def SwarmMaster.identify_loop (sm : SwarmMaster) (llm : Nat → String)
    (previous_agent : String) (messages : List Message) :
    Nat → Nat → Option String × List String
  | _, 0 => (none, [])
  | retries, fuel + 1 =>
    let content := sm.complete_next_agent_content previous_agent messages
      (decide (retries > 0))
    let completed_agent_identified := llm retries
    if sm.is_in_agents_list completed_agent_identified then
      (some completed_agent_identified, [content])
    else
      let rest := sm.identify_loop llm previous_agent messages (retries + 1) fuel
      (rest.1, content :: rest.2)

/-- `SwarmMaster._identify_next_agent`: run the loop; when no attempt
identified an agent, fall back to `self.responsible_agent.identifier`.
The function is total: this path returns normally, it raises nothing. -/
def SwarmMaster.identify_next_agent (sm : SwarmMaster) (llm : Nat → String)
    (previous_agent : String) (messages : List Message) : String :=
  match (sm.identify_loop llm previous_agent messages 0 5).1 with
  | some next_agent => next_agent
  | none => sm.responsible_agent.identifier

/-- The selection prompts submitted to the LLM during one
`_identify_next_agent` call, in attempt order. -/
def SwarmMaster.selection_prompts (sm : SwarmMaster) (llm : Nat → String)
    (previous_agent : String) (messages : List Message) : List String :=
  (sm.identify_loop llm previous_agent messages 0 5).2

/-- In-place rewrite of the tail element (`messages[-1] = ...`); on `[]`
the Python subscript would raise `IndexError`, a case no caller reaches
(`process_response` frames empty conversations first). -/
def updateLast (f : Message → Message) : List Message → List Message
  | [] => []
  | [m] => [f m]
  | m :: rest => m :: updateLast f rest

/-- Result of one orchestrator turn: updated orchestrator state, the
conversation as persisted/forwarded, and the `send_message` target topic. -/
structure RoutingStep where
  master : SwarmMaster
  conversation : Conversation
  target : String
  deriving DecidableEq, Repr

/-- The proxy identity in effect during one routing step: `self.proxy`
after the `if self.proxy is None: self.proxy = agent_requestor`
assignment in `_process_regular_response` (the requestor on first use,
the previously remembered identity afterwards). -/
def SwarmMaster.remembered_proxy (sm : SwarmMaster) (agent_requestor : String) :
    String :=
  match sm.proxy with
  | none => agent_requestor
  | some p => p

/-- `SwarmMaster._process_regular_response`.  Steps, in source order:
read `agent_requestor` from the header; select `next_agent`; remember the
requestor as the proxy if none is remembered yet; flip the tail message's
`pending_user_reply` to `True` when the (now remembered) proxy equals the
selected agent and the tail role is not `"user"`; stamp the tail with the
current time; overwrite `header.sender` with the orchestrator's name;
persist (`store_conversation`, a cache write of the returned conversation)
and forward to `next_agent`. -/
def SwarmMaster.process_regular_response (sm : SwarmMaster) (llm : Nat → String)
    (now : Timestamp) (conversation : Conversation) : RoutingStep :=
  let agent_requestor := conversation.header.sender
  let next_agent := sm.identify_next_agent llm agent_requestor conversation.messages
  let sm1 : SwarmMaster :=
    { sm with proxy := some (sm.remembered_proxy agent_requestor) }
  let pend : Bool :=
    match conversation.messages.getLast? with
    | some tail => (sm1.proxy == some next_agent) && (tail.role != "user")
    | none => false
  let messages1 :=
    if pend then
      updateLast (fun m => { m with pending_user_reply := some true })
        conversation.messages
    else conversation.messages
  let messages2 := updateLast (fun m => { m with datetime_value := now }) messages1
  { master := sm1
    conversation :=
      { header := { conversation.header with sender := sm.name }
        messages := messages2 }
    target := next_agent }

/-- `SwarmMaster.process_response`: frame an empty conversation (or a
single-user-message conversation) by appending the initial system message,
then route. -/
def SwarmMaster.process_response (sm : SwarmMaster) (llm : Nat → String)
    (now : Timestamp) (conversation : Conversation) : RoutingStep :=
  let messages1 :=
    if conversation.messages.length = 0 then
      conversation.messages ++ [compose_initial_system_message now sm.name sm.agent_vos]
    else if conversation.messages.length = 1 then
      match conversation.messages.head? with
      | some message =>
        if message.role == "user" then
          conversation.messages ++ [compose_initial_system_message now sm.name sm.agent_vos]
        else conversation.messages
      | none => conversation.messages
    else conversation.messages
  sm.process_regular_response llm now { conversation with messages := messages1 }

/-! ## `coreagents/agent/oai/oai_raci_agent.py` completion retry loop -/

/-- `ChatCompletionMessageToolCall.function`: name and raw JSON arguments. -/
structure ToolCallFunction where
  name : String
  arguments : String
  deriving DecidableEq, Repr

/-- `ChatCompletionMessageToolCall`: only the fields `_complete` reads. -/
structure ToolCall where
  id : String
  function : ToolCallFunction
  deriving DecidableEq, Repr

/-- `ChatCompletionMessage`: only the fields `_complete` reads.  `content`
is `Optional[str]` in the client library. -/
structure ChatCompletionMessage where
  content : Option String
  tool_calls : List ToolCall
  deriving DecidableEq, Repr

/-- One element of `ChatCompletion.choices`. -/
structure ChatChoice where
  message : ChatCompletionMessage
  deriving DecidableEq, Repr

/-- `ChatCompletion`: the completion object returned by the client. -/
structure ChatCompletion where
  choices : List ChatChoice
  deriving DecidableEq, Repr

/-- Outcome of one `client.chat.completions.create` call, as the retry loop
of `_do_completion_call` classifies it: a completion object; a transient
error (`APIConnectionError`, `InternalServerError`,
`APIResponseValidationError` — retried with linear backoff); or a terminal
error (`APIError`, `OpenAIError`, `PermissionDeniedError` — sets
`retries = max_retries`, ending the loop at once). -/
inductive CompletionCallResult where
  | success (completion : ChatCompletion)
  | transient
  | terminal
  deriving DecidableEq, Repr

/-- The `while retries < max_retries and response is None` loop of
`OpenAIRaciAgent._do_completion_call`.  `api call` is the outcome of the
`call`-th request of this loop (the LLM is an external collaborator);
`fuel = max_retries - retries` is the remaining retry budget, each transient
error consumes one (`retries += 1`), a terminal error exhausts it.  The
backoff sleep has no observable effect in the model. -/
def do_completion_call_scan (api : Nat → CompletionCallResult) :
    Nat → Nat → Option ChatCompletion
  | _, 0 => none
  | call, fuel + 1 =>
    match api call with
    | .success completion => some completion
    | .transient => do_completion_call_scan api (call + 1) fuel
    | .terminal => none

/-- `OpenAIRaciAgent._do_completion_call` with the default `max_retries = 5`:
returns the completion object, or `None` after exhausting the retries or
hitting a terminal error.  (The system-assistant message appended to
`oai_messages` before the loop does not affect which of these is returned;
the request payload is absorbed into the `api` oracle.) -/
def do_completion_call (api : Nat → CompletionCallResult) : Option ChatCompletion :=
  do_completion_call_scan api 0 5

/-- Exceptions the statements in `_complete` can raise. -/
inductive PyError where
  | attributeError
  | indexError
  deriving DecidableEq, Repr

/-- `OpenAIRaciAgent._complete` when `self.tools is None`: the reply is
`response.choices[0].message.content`.  When `_do_completion_call` returned
`None`, the attribute access `response.choices` raises `AttributeError`;
when `choices` is empty, the `[0]` subscript raises `IndexError`.  (The
local `content` is initialized to `""` but unconditionally overwritten
before it could be returned.) -/
def complete_without_tools (api : Nat → CompletionCallResult) :
    Except PyError (Option String) :=
  match do_completion_call api with
  | none => .error .attributeError
  | some response =>
    match response.choices.head? with
    | none => .error .indexError
    | some choice => .ok choice.message.content

/-! ## `coreagents/agent/helper/oai/agent_tools_helper.py` -/

/-- A tool definition, reduced to the single field the lookup reads:
`tool.get("function", {}).get("name")` (`none` when either key is absent). -/
structure ToolDef where
  function_name : Option String
  deriving DecidableEq, Repr

/-- The agent's name→endpoint table
`tools: dict[str, dict[str, list[dict]]]` — endpoint → method → tool
definitions, in insertion order (`dict.items()`). -/
abbrev ToolsTable := List (String × List (String × List ToolDef))

/-- The loop variables of `_retrieve_http_request_values`: `found` plus the
`http_endpoint` / `http_method` locals, which persist across iterations. -/
structure LookupState where
  found : Bool
  http_endpoint : Option String
  http_method : Option String
  deriving DecidableEq, Repr

/-- Innermost `while not found and k < len(method_tools)` loop. -/
def lookup_tools_scan (tool_call_function_name : String) :
    List ToolDef → LookupState → LookupState
  | [], st => st
  | tool :: rest, st =>
    if st.found then st
    else
      let st1 :=
        if tool.function_name == some tool_call_function_name then
          { st with found := true }
        else st
      lookup_tools_scan tool_call_function_name rest st1

/-- Middle `while not found and j < len(http_methods)` loop: assigns
`http_method` before scanning that method's tools. -/
def lookup_methods_scan (tool_call_function_name : String) :
    List (String × List ToolDef) → LookupState → LookupState
  | [], st => st
  | (http_method, method_tools) :: rest, st =>
    if st.found then st
    else
      lookup_methods_scan tool_call_function_name rest
        (lookup_tools_scan tool_call_function_name method_tools
          { st with http_method := some http_method })

/-- Outer `while not found and i < len(http_endpoints)` loop: assigns
`http_endpoint` before scanning that endpoint's methods. -/
def lookup_endpoints_scan (tool_call_function_name : String) :
    ToolsTable → LookupState → LookupState
  | [], st => st
  | (http_endpoint, methods_dict) :: rest, st =>
    if st.found then st
    else
      lookup_endpoints_scan tool_call_function_name rest
        (lookup_methods_scan tool_call_function_name methods_dict
          { st with http_endpoint := some http_endpoint })

/-- `_retrieve_http_request_values`: the `(http_endpoint, http_method)`
locals after the scan.  On a miss the function logs an error and returns
the locals as they stand — the last visited endpoint and method — not the
`(None, None)` its docstring promises. -/
def retrieve_http_request_values (tools : ToolsTable)
    (tool_call_function_name : String) : Option String × Option String :=
  let st := lookup_endpoints_scan tool_call_function_name tools
    { found := false, http_endpoint := none, http_method := none }
  (st.http_endpoint, st.http_method)

/-- The HTTP side effect `execute_call_from_tools` performs for one tool
call. -/
inductive HttpInvocation where
  | nothing
  | get (endpoint : String)
  | post (endpoint : String)
  | invalidMethod (endpoint : String)
  deriving DecidableEq, Repr

/-- `execute_call_from_tools`, projected onto its HTTP effect: when both
lookup results are non-`None`, dispatch on `http_method.upper()`; otherwise
perform nothing (the returned response stays `{}`). -/
def execute_call_invocation (tools : ToolsTable)
    (tool_call_function_name : String) : HttpInvocation :=
  match retrieve_http_request_values tools tool_call_function_name with
  | (some http_endpoint, some http_method) =>
    if pyUpper http_method == "GET" then .get http_endpoint
    else if pyUpper http_method == "POST" then .post http_endpoint
    else .invalidMethod http_endpoint
  | _ => .nothing

/-- Whether any tool definition in the table carries the requested name
(the condition under which the lookup can legitimately succeed). -/
def tools_table_defines (tools : ToolsTable) (name : String) : Bool :=
  tools.any (fun endpoint_entry =>
    endpoint_entry.2.any (fun method_entry =>
      method_entry.2.any (fun tool => tool.function_name == some name)))

/-- A `role = "tool"` message as `_complete` appends it after executing one
requested tool call (content is the JSON dump of the — possibly empty —
response dict; id and name are copied from the tool call). -/
structure ToolResultMessage where
  tool_call_id : String
  name : String
  deriving DecidableEq, Repr

/-- The tool-result messages contributed by the tool-call loop in
`OpenAIRaciAgent._complete`: one per requested tool call, appended
unconditionally — resolution failures do not suppress the append. -/
def tool_result_messages (tool_calls : List ToolCall) : List ToolResultMessage :=
  tool_calls.map (fun tc => { tool_call_id := tc.id, name := tc.function.name })

/-! ## `coreagents/agent/raci_agent.py` RedisHandler -/

/-- Outcome of `self.r.get(key)`: a stored serialized value, a miss
(`None`), or a raised `RedisError`. -/
inductive RedisGetResult where
  | value (s : String)
  | missing
  | failure
  deriving DecidableEq, Repr

/-- The try-block of `RedisHandler.retrieve`, before exception handling:
`value = {}`; `r.get` may raise (`.error`); a miss logs and leaves `{}`;
otherwise `json.loads` may raise (`.error`) or produce the parsed payload.
`D` is the payload type of the parsed JSON dict, `empty` its `{}`. -/
def redis_retrieve_body (D : Type) (empty : D) (get_result : RedisGetResult)
    (loads : String → Except Unit D) : Except Unit D :=
  match get_result with
  | .failure => .error ()
  | .missing => .ok empty
  | .value s =>
    match loads s with
    | .error e => .error e
    | .ok v => .ok v

/-- `RedisHandler.retrieve`: the body wrapped in
`except (RedisError, json.JSONDecodeError)`, which catches exactly the
errors the body can raise, so the caller always receives a dict. -/
def RedisHandler.retrieve (D : Type) (empty : D) (get_result : RedisGetResult)
    (loads : String → Except Unit D) : D :=
  match redis_retrieve_body D empty get_result loads with
  | .ok v => v
  | .error _ => empty

/-- The try-block of `RedisHandler.store`: `added_fields = 0`; when the
value is not `None`, `json.dumps` may raise `TypeError` (`.error`) and
`r.set` may raise `RedisError` (`.error`) or return the store's reply
(`1` for an acknowledged write). -/
def redis_store_body (value_present : Bool) (dumps_result : Except Unit String)
    (set_result : Except Unit Nat) : Except Unit Nat :=
  if value_present then
    match dumps_result with
    | .error e => .error e
    | .ok _ => set_result
  else .ok 0

/-- `RedisHandler.store`: the body wrapped in
`except (RedisError, TypeError)`; on any caught error `added_fields` keeps
its initial `0`, which is logged and returned. -/
def RedisHandler.store (value_present : Bool) (dumps_result : Except Unit String)
    (set_result : Except Unit Nat) : Nat :=
  match redis_store_body value_present dumps_result set_result with
  | .ok n => n
  | .error _ => 0

/-! ## Concrete instances (used to run the theorems on executable inputs) -/

/-- A Responsible writer agent. -/
def writerAgentVO : AgentVO :=
  { identifier := "writer", raci_role := "r", agent_type := "ai"
    agent_description := "writes drafts", goals := "write the memo"
    tools := [], rag_enabled := false, model := "gpt-4o" }

/-- An Accountable editor agent. -/
def editorAgentVO : AgentVO :=
  { identifier := "editor", raci_role := "a", agent_type := "ai"
    agent_description := "edits drafts", goals := "polish the memo"
    tools := [], rag_enabled := false, model := "gpt-4o" }

/-- A two-agent orchestrator over the writer/editor swarm, before any turn. -/
def demoSwarmMaster : SwarmMaster :=
  { name := "swarm", agent_vos := [writerAgentVO, editorAgentVO]
    responsible_agent := writerAgentVO, accountable_agent := editorAgentVO
    proxy := none }

/-- The same orchestrator after it has remembered `"writer"` as the proxy. -/
def demoSwarmMasterProxyWriter : SwarmMaster :=
  { demoSwarmMaster with proxy := some "writer" }

/-- An assistant message authored by the writer agent. -/
def demoMessageFromWriter : Message :=
  { content := "draft", role := "assistant", name := some "writer"
    pending_user_reply := some false, datetime_value := 1 }

/-- A user message. -/
def demoUserMessage : Message :=
  { content := "please draft a memo", role := "user", name := some "proxy"
    pending_user_reply := none, datetime_value := 0 }

/-- A mid-flight conversation whose tail is the writer's assistant message. -/
def demoConversation : Conversation :=
  { header := { user_id := "u1", conversation_id := "u1_c1", sender := "proxy" }
    messages := [demoUserMessage, demoMessageFromWriter] }

/-- A swarm descriptor with two Responsible agents and no Accountable one. -/
def badSwarmVO : SwarmVO :=
  { identifier := "bad", swarm_type := "raci", agents := [writerAgentVO, writerAgentVO] }

/-- A valid swarm descriptor: exactly one Responsible and one Accountable. -/
def goodSwarmVO : SwarmVO :=
  { identifier := "good", swarm_type := "raci", agents := [writerAgentVO, editorAgentVO] }

/-- A tool definition named `alpha_tool`. -/
def alphaToolDef : ToolDef := { function_name := some "alpha_tool" }

/-- A one-endpoint tools table defining only `alpha_tool` under GET. -/
def demoToolsTable : ToolsTable :=
  [("http://alpha.example/api", [("get", [alphaToolDef])])]

end CoreAgents

namespace CoreAgents

/-! ## Round-trip lemmas for the envelope codec -/

theorem message_roundtrip (now : Timestamp) (m : Message) :
    Message.from_dict now (Message.to_dict m) = m := rfl

theorem header_roundtrip (h : Header) :
    Header.from_dict (Header.to_dict h) = h := rfl

theorem messages_roundtrip (now : Timestamp) (l : List Message) :
    to_messages_from_dict now (to_dict_messages l) = l := by
  induction l with
  | nil => rfl
  | cons m rest ih =>
      simp only [to_dict_messages, to_messages_from_dict, List.map_cons,
        List.map_map] at *
      simpa [message_roundtrip] using ih

/-! ## Role-counting lemmas -/

theorem swarm_role_totals_aux (agents : List AgentVO) :
    ∀ p : Nat × Nat,
    agents.foldl
      (fun totals agent_vo =>
        if pyLower agent_vo.raci_role == "r" then (totals.1 + 1, totals.2)
        else if pyLower agent_vo.raci_role == "a" then (totals.1, totals.2 + 1)
        else totals) p
      = (p.1 + count_role agents "r", p.2 + count_role agents "a") := by
  induction agents with
  | nil => intro p; simp [count_role]
  | cons a rest ih =>
      intro p
      simp only [List.foldl_cons]
      rw [ih]
      by_cases hr : pyLower a.raci_role = "r"
      · have hbr : (pyLower a.raci_role == "r") = true := by simp [hr]
        have hba : (pyLower a.raci_role == "a") = false := by rw [hr]; decide
        simp only [count_role, List.filter_cons, hbr, hba, if_true,
          Bool.false_eq_true, if_false, List.length_cons, hbr]
        simp [Prod.ext_iff]
        omega
      · have hbr : (pyLower a.raci_role == "r") = false := by simp [hr]
        by_cases ha : pyLower a.raci_role = "a"
        · have hba : (pyLower a.raci_role == "a") = true := by simp [ha]
          simp only [count_role, List.filter_cons, hbr, hba, if_true,
            Bool.false_eq_true, if_false, List.length_cons]
          simp [Prod.ext_iff]
          omega
        · have hba : (pyLower a.raci_role == "a") = false := by simp [ha]
          simp only [count_role, List.filter_cons, hbr, hba,
            Bool.false_eq_true, if_false]

theorem swarm_role_totals_eq (agents : List AgentVO) :
    swarm_role_totals agents = (count_role agents "r", count_role agents "a") := by
  unfold swarm_role_totals
  rw [swarm_role_totals_aux agents (0, 0)]
  simp

theorem identify_scan_count_aux (raci_role : String) (agent_vos : List AgentVO) :
    ∀ p : Nat × Option AgentVO,
    (agent_vos.foldl
      (fun (acc : Nat × Option AgentVO) agent_vo =>
        if pyLower agent_vo.raci_role == raci_role then (acc.1 + 1, some agent_vo)
        else acc) p).1
      = p.1 + count_role agent_vos raci_role := by
  induction agent_vos with
  | nil => intro p; simp [count_role]
  | cons a rest ih =>
      intro p
      simp only [List.foldl_cons]
      rw [ih]
      by_cases h : pyLower a.raci_role = raci_role
      · have hb : (pyLower a.raci_role == raci_role) = true := by simp [h]
        simp only [count_role, List.filter_cons, hb, if_true, List.length_cons]
        omega
      · have hb : (pyLower a.raci_role == raci_role) = false := by simp [h]
        simp only [count_role, List.filter_cons, hb, Bool.false_eq_true, if_false]

theorem identify_scan_count (agent_vos : List AgentVO) (raci_role : String) :
    (identify_scan agent_vos raci_role).1 = count_role agent_vos raci_role := by
  unfold identify_scan
  rw [identify_scan_count_aux raci_role agent_vos (0, none)]
  simp

theorem identify_single_role_agent_error_of_count_ne_one
    (agent_vos : List AgentVO) (raci_role : String)
    (h : count_role agent_vos raci_role ≠ 1) :
    ∃ e, identify_single_role_agent agent_vos raci_role = Except.error e := by
  have hc := identify_scan_count agent_vos raci_role
  unfold identify_single_role_agent
  rcases Nat.lt_or_ge (count_role agent_vos raci_role) 1 with hlt | hge
  · have h0 : (identify_scan agent_vos raci_role).1 = 0 := by omega
    simp [h0]
  · have h2 : 1 < (identify_scan agent_vos raci_role).1 := by omega
    have hne : ¬ (identify_scan agent_vos raci_role).1 = 0 := by omega
    simp [hne, h2]

theorem identify_scan_found_role (raci_role : String) :
    ∀ (l : List AgentVO) (p : Nat × Option AgentVO),
    (∀ b, p.2 = some b → pyLower b.raci_role = raci_role) →
    ∀ b,
      (l.foldl
        (fun (acc : Nat × Option AgentVO) agent_vo =>
          if pyLower agent_vo.raci_role == raci_role then (acc.1 + 1, some agent_vo)
          else acc) p).2 = some b →
      pyLower b.raci_role = raci_role := by
  intro l
  induction l with
  | nil => intro p hp b hb; exact hp b hb
  | cons a rest ih =>
      intro p hp b hb
      simp only [List.foldl_cons] at hb
      by_cases h : pyLower a.raci_role = raci_role
      · have hbeq : (pyLower a.raci_role == raci_role) = true := by simp [h]
        rw [hbeq] at hb
        simp only [if_true] at hb
        refine ih (p.1 + 1, some a) ?_ b hb
        intro c hc
        simp only at hc
        cases hc
        exact h
      · have hbeq : (pyLower a.raci_role == raci_role) = false := by simp [h]
        rw [hbeq] at hb
        simp only [Bool.false_eq_true, if_false] at hb
        exact ih p hp b hb

theorem identify_single_role_agent_ok_role (l : List AgentVO) (raci_role : String)
    (a : AgentVO) (h : identify_single_role_agent l raci_role = Except.ok a) :
    pyLower a.raci_role = raci_role := by
  simp only [identify_single_role_agent] at h
  by_cases h1 : ((identify_scan l raci_role).1 == 0) = true
  · rw [if_pos h1] at h
    exact absurd h (by simp)
  · rw [if_neg h1] at h
    by_cases h2 : (identify_scan l raci_role).1 > 1
    · rw [if_pos h2] at h
      exact absurd h (by simp)
    · rw [if_neg h2] at h
      rcases hs : (identify_scan l raci_role).2 with _ | b
      · rw [hs] at h
        exact absurd h (by simp)
      · rw [hs] at h
        simp only [Except.ok.injEq] at h
        subst h
        exact identify_scan_found_role raci_role l (0, none)
          (by intro c hc; simp at hc) b hs

/-! ## updateLast lemmas -/

theorem updateLast_length (f : Message → Message) :
    ∀ l : List Message, (updateLast f l).length = l.length
  | [] => rfl
  | [_] => rfl
  | _ :: m2 :: rest => by
      simp only [updateLast, List.length_cons, updateLast_length f (m2 :: rest)]

theorem updateLast_get?_lt (f : Message → Message) :
    ∀ (l : List Message) (i : Nat), i + 1 < l.length →
      (updateLast f l).get? i = l.get? i
  | [], _, h => by simp at h
  | [_], i, h => by simp at h
  | _ :: m2 :: rest, 0, _ => rfl
  | m :: m2 :: rest, i + 1, h => by
      simp only [updateLast, List.get?_cons_succ]
      exact updateLast_get?_lt f (m2 :: rest) i (by simpa using h)

theorem updateLast_getLast? (f : Message → Message) :
    ∀ l : List Message, (updateLast f l).getLast? = l.getLast?.map f
  | [] => rfl
  | [m] => by simp [updateLast]
  | m :: m2 :: m3 :: rest => by
      have ih := updateLast_getLast? f (m2 :: m3 :: rest)
      calc (updateLast f (m :: m2 :: m3 :: rest)).getLast?
          = (m :: m2 :: updateLast f (m3 :: rest)).getLast? := rfl
        _ = (m2 :: updateLast f (m3 :: rest)).getLast? := List.getLast?_cons_cons
        _ = (updateLast f (m2 :: m3 :: rest)).getLast? := rfl
        _ = ((m2 :: m3 :: rest).getLast?).map f := ih
        _ = ((m :: m2 :: m3 :: rest).getLast?).map f := by
              rw [show (m :: m2 :: m3 :: rest).getLast?
                    = (m2 :: m3 :: rest).getLast? from List.getLast?_cons_cons]
  | [m, m2] => by simp [updateLast, List.getLast?_cons_cons]

theorem updateLast_append_singleton (f : Message → Message) :
    ∀ (l : List Message) (x : Message), updateLast f (l ++ [x]) = l ++ [f x]
  | [], x => rfl
  | [m], x => rfl
  | m :: m2 :: rest, x => by
      have ih := updateLast_append_singleton f (m2 :: rest) x
      calc updateLast f ((m :: m2 :: rest) ++ [x])
          = m :: updateLast f ((m2 :: rest) ++ [x]) := rfl
        _ = m :: ((m2 :: rest) ++ [f x]) := by rw [ih]
        _ = (m :: m2 :: rest) ++ [f x] := rfl

theorem updateLast_comp (f g : Message → Message) :
    ∀ l : List Message, updateLast f (updateLast g l) = updateLast (fun m => f (g m)) l
  | [] => rfl
  | [m] => rfl
  | m :: m2 :: m3 :: rest => by
      have ih := updateLast_comp f g (m2 :: m3 :: rest)
      calc updateLast f (updateLast g (m :: m2 :: m3 :: rest))
          = m :: updateLast f (updateLast g (m2 :: m3 :: rest)) := rfl
        _ = m :: updateLast (fun m => f (g m)) (m2 :: m3 :: rest) := by rw [ih]
        _ = updateLast (fun m => f (g m)) (m :: m2 :: m3 :: rest) := rfl
  | [m, m2] => rfl

/-! ## identify_loop lemmas -/

theorem identify_loop_length_le (sm : SwarmMaster) (llm : Nat → String)
    (previous_agent : String) (messages : List Message) :
    ∀ (fuel retries : Nat),
      ((sm.identify_loop llm previous_agent messages retries fuel).2).length ≤ fuel := by
  intro fuel
  induction fuel with
  | zero => intro retries; simp [SwarmMaster.identify_loop]
  | succ n ih =>
      intro retries
      rw [SwarmMaster.identify_loop]
      by_cases h : sm.is_in_agents_list (llm retries) = true
      · rw [if_pos h]
        simp
      · rw [if_neg h]
        simp only [List.length_cons]
        have := ih (retries + 1)
        omega

theorem identify_loop_prompts (sm : SwarmMaster) (llm : Nat → String)
    (previous_agent : String) (messages : List Message) :
    ∀ (fuel retries k : Nat),
      k < ((sm.identify_loop llm previous_agent messages retries fuel).2).length →
      ((sm.identify_loop llm previous_agent messages retries fuel).2).get? k
        = some (sm.complete_next_agent_content previous_agent messages
            (decide (retries + k > 0))) := by
  intro fuel
  induction fuel with
  | zero => intro retries k hk; simp [SwarmMaster.identify_loop] at hk
  | succ n ih =>
      intro retries k hk
      by_cases h : sm.is_in_agents_list (llm retries) = true
      · have hsh : (sm.identify_loop llm previous_agent messages retries (n + 1)).2
            = [sm.complete_next_agent_content previous_agent messages
                (decide (retries > 0))] := by
          rw [SwarmMaster.identify_loop, if_pos h]
        rcases k with _ | k2
        · rw [hsh]
          rfl
        · exfalso
          rw [hsh] at hk
          simp at hk
      · have hsh : (sm.identify_loop llm previous_agent messages retries (n + 1)).2
            = sm.complete_next_agent_content previous_agent messages
                (decide (retries > 0))
              :: (sm.identify_loop llm previous_agent messages (retries + 1) n).2 := by
          rw [SwarmMaster.identify_loop, if_neg h]
        rcases k with _ | k2
        · rw [hsh]
          rfl
        · have hk2 : k2 < ((sm.identify_loop llm previous_agent messages
              (retries + 1) n).2).length := by
            rw [hsh] at hk
            simpa using hk
          rw [hsh]
          rw [List.get?_cons_succ]
          rw [ih (retries + 1) k2 hk2]
          have harith : retries + 1 + k2 = retries + (k2 + 1) := by omega
          rw [harith]

theorem identify_loop_none (sm : SwarmMaster) (llm : Nat → String)
    (previous_agent : String) (messages : List Message) :
    ∀ (fuel retries : Nat),
      (∀ k, k < fuel → sm.is_in_agents_list (llm (retries + k)) = false) →
      (sm.identify_loop llm previous_agent messages retries fuel).1 = none := by
  intro fuel
  induction fuel with
  | zero => intro retries _; simp [SwarmMaster.identify_loop]
  | succ n ih =>
      intro retries hall
      rw [SwarmMaster.identify_loop]
      have h0 : sm.is_in_agents_list (llm retries) = false := by
        have := hall 0 (by omega)
        simpa using this
      rw [if_neg (by simp [h0])]
      exact ih (retries + 1) (fun k hk => by
        have := hall (k + 1) (by omega)
        simpa [Nat.add_assoc, Nat.add_comm 1] using this)

theorem identify_loop_some (sm : SwarmMaster) (llm : Nat → String)
    (previous_agent : String) (messages : List Message) :
    ∀ (fuel retries : Nat) (x : String),
      (sm.identify_loop llm previous_agent messages retries fuel).1 = some x →
      ∃ k, k < fuel ∧ x = llm (retries + k) ∧ sm.is_in_agents_list x = true := by
  intro fuel
  induction fuel with
  | zero => intro retries x hx; simp [SwarmMaster.identify_loop] at hx
  | succ n ih =>
      intro retries x hx
      rw [SwarmMaster.identify_loop] at hx
      by_cases h : sm.is_in_agents_list (llm retries) = true
      · rw [if_pos h] at hx
        simp only [Option.some.injEq] at hx
        refine ⟨0, by omega, hx.symm, ?_⟩
        rw [hx] at h
        exact h
      · rw [if_neg h] at hx
        obtain ⟨k, hk, hval, hin⟩ := ih (retries + 1) x hx
        exact ⟨k + 1, by omega, by rw [hval]; congr 1; omega, hin⟩

/-! ## Prompt composition lemmas -/

theorem compose_next_agent_body_eq (previous_agent : String) :
    ∀ (l : List AgentVO) (first_agent : Bool),
      compose_next_agent_body l previous_agent first_agent
        = if first_agent then join_comma (next_agent_candidates l previous_agent)
          else join_comma_rest (next_agent_candidates l previous_agent) := by
  intro l
  induction l with
  | nil =>
      intro first
      cases first <;> rfl
  | cons a rest ih =>
      intro first
      cases hbeq : (a.identifier == previous_agent) with
      | true =>
          have hbne : (a.identifier != previous_agent) = false := by
            simp [bne, hbeq]
          simp only [compose_next_agent_body, hbeq, if_true]
          rw [ih first]
          simp only [next_agent_candidates, List.filter_cons, hbne,
            Bool.false_eq_true, if_false]
      | false =>
          have hbne : (a.identifier != previous_agent) = true := by
            simp [bne, hbeq]
          have hcand : next_agent_candidates (a :: rest) previous_agent
              = a.identifier :: next_agent_candidates rest previous_agent := by
            simp only [next_agent_candidates, List.filter_cons, hbne, if_true,
              List.map_cons]
          simp only [compose_next_agent_body, hbeq, Bool.false_eq_true, if_false]
          rw [ih false, hcand]
          simp only [Bool.false_eq_true, if_false]
          cases first with
          | true =>
              simp only [if_true, join_comma]
          | false =>
              simp only [Bool.false_eq_true, if_false, join_comma_rest,
                List.foldr_cons]

theorem compose_next_agent_message_content_eq (l : List AgentVO)
    (previous_agent : String) :
    compose_next_agent_message_content l previous_agent
      = prompt_of_candidates (next_agent_candidates l previous_agent) := by
  unfold compose_next_agent_message_content prompt_of_candidates
  rw [compose_next_agent_body_eq previous_agent l true]
  simp

theorem map_identifier_filter (p : String → Bool) (l : List AgentVO) :
    (l.filter (fun a => p a.identifier)).map AgentVO.identifier
      = (l.map AgentVO.identifier).filter p := by
  induction l with
  | nil => rfl
  | cons a rest ih =>
      by_cases h : p a.identifier = true
      · simp only [List.filter_cons, List.map_cons, h, if_true, ih]
      · have h2 : p a.identifier = false := by
          cases hp : p a.identifier
          · rfl
          · exact absurd hp h
        simp only [List.filter_cons, List.map_cons, h2, Bool.false_eq_true,
          if_false, ih]

theorem next_agent_candidates_filter (l : List AgentVO) (previous_agent : String) :
    next_agent_candidates l previous_agent
      = (l.map AgentVO.identifier).filter (fun x => x != previous_agent) := by
  unfold next_agent_candidates
  exact map_identifier_filter (fun x => x != previous_agent) l

theorem complete_content_attempt_one (sm : SwarmMaster) (previous_agent : String)
    (messages : List Message) :
    sm.complete_next_agent_content previous_agent messages false
      = prompt_of_candidates
          ((sm.agent_vos.map AgentVO.identifier).filter
            (fun x => x != previous_agent)) := by
  unfold SwarmMaster.complete_next_agent_content
  rw [if_neg (by simp)]
  rw [compose_next_agent_message_content_eq, next_agent_candidates_filter]

theorem complete_content_narrowed (sm : SwarmMaster) (previous_agent : String)
    (messages : List Message) :
    sm.complete_next_agent_content previous_agent messages true
      = prompt_of_candidates
          ((sm.agent_vos.map AgentVO.identifier).filter
            (fun x => x != previous_agent
              && !((messages.map Message.name).contains (some x)))) := by
  unfold SwarmMaster.complete_next_agent_content
  rw [if_pos rfl]
  rw [compose_next_agent_message_content_eq]
  unfold next_agent_candidates SwarmMaster.agent_vos_filtered
  rw [List.filter_filter]
  exact congrArg prompt_of_candidates
    (map_identifier_filter
      (fun x => x != previous_agent
        && !((messages.map Message.name).contains (some x))) sm.agent_vos)

/-! ## Claim theorems -/

/-- C1 counterexample: with the two distinct candidates `"writer"` and
`"editor"`, preceding sender `"writer"`, and an LLM that replies `"writer"`
on every attempt, `_identify_next_agent` returns `"writer"` — the
immediately preceding sender — because replies are validated only for
membership in the agent list, never against the preceding sender. -/
theorem identify_next_agent_returns_previous_sender :
    demoSwarmMaster.identify_next_agent (fun _ => "writer") "writer" [] = "writer"
    ∧ demoSwarmMaster.agent_vos.map AgentVO.identifier = ["writer", "editor"]
    ∧ ("writer" : String) ≠ "editor" := by
  refine ⟨by decide, by decide, by decide⟩

/-- C1 (amended): the returned identifier never equals the immediately
preceding sender, provided no LLM reply equals the preceding sender's
identifier and the Responsible fallback agent is not the preceding sender;
the enumerated prompt pool always excludes the preceding sender, but the
reply itself is checked only against the full agent list. -/
theorem identify_next_agent_ne_previous (sm : SwarmMaster) (llm : Nat → String)
    (previous_agent : String) (messages : List Message)
    (hllm : ∀ k, k < 5 → llm k ≠ previous_agent)
    (hresp : sm.responsible_agent.identifier ≠ previous_agent) :
    sm.identify_next_agent llm previous_agent messages ≠ previous_agent := by
  unfold SwarmMaster.identify_next_agent
  rcases hres : (sm.identify_loop llm previous_agent messages 0 5).1 with _ | x
  · exact hresp
  · obtain ⟨k, hk, hval, _⟩ :=
      identify_loop_some sm llm previous_agent messages 5 0 x hres
    rw [hval]
    simpa using hllm k hk

/-- C1 witness: concrete instance of the amended statement. -/
theorem identify_next_agent_ne_previous_witness :
    demoSwarmMaster.identify_next_agent (fun _ => "writer") "editor" [] ≠ "editor" :=
  identify_next_agent_ne_previous demoSwarmMaster (fun _ => "writer") "editor" []
    (fun _ _ => (by decide : ("writer" : String) ≠ "editor")) (by decide)

/-- C2: when all 5 selection attempts return an identifier outside the known
agent list, `_identify_next_agent` returns exactly the Responsible agent's
identifier (the agent recorded at construction as the unique one whose
`raci_role` lowercases to `"r"`); the fallback is a normal return — the
embedded function is total, nothing is raised on this path. -/
theorem identify_next_agent_fallback_responsible (sm : SwarmMaster)
    (llm : Nat → String) (previous_agent : String) (messages : List Message)
    (hres : identify_single_role_agent sm.agent_vos "r"
      = Except.ok sm.responsible_agent)
    (hall : ∀ k, k < 5 → sm.is_in_agents_list (llm k) = false) :
    sm.identify_next_agent llm previous_agent messages
      = sm.responsible_agent.identifier
    ∧ pyLower sm.responsible_agent.raci_role = "r" := by
  constructor
  · unfold SwarmMaster.identify_next_agent
    rw [identify_loop_none sm llm previous_agent messages 5 0
      (fun k hk => by simpa using hall k hk)]
  · exact identify_single_role_agent_ok_role sm.agent_vos "r"
      sm.responsible_agent hres

/-- C2 witness: five unknown replies fall back to `"writer"`, the
Responsible agent. -/
theorem identify_next_agent_fallback_responsible_witness :
    demoSwarmMaster.identify_next_agent (fun _ => "ghost") "editor" [] = "writer"
    ∧ pyLower demoSwarmMaster.responsible_agent.raci_role = "r" := by
  have h := identify_next_agent_fallback_responsible demoSwarmMaster
    (fun _ => "ghost") "editor" [] rfl
    (fun _ _ => (by decide : demoSwarmMaster.is_in_agents_list "ghost" = false))
  exact ⟨h.1.trans rfl, h.2⟩

/-- C4: the pool of candidate identifiers enumerated in the selection prompt
is, on attempt 1, every agent identifier except the immediately preceding
sender, and on each later attempt (entered only after a failure) every agent
identifier except the preceding sender and those already naming a message in
the conversation history; at most 5 prompts are issued. -/
theorem selection_pool_narrowing (sm : SwarmMaster) (llm : Nat → String)
    (previous_agent : String) (messages : List Message) :
    (sm.selection_prompts llm previous_agent messages).length ≤ 5 ∧
    (sm.selection_prompts llm previous_agent messages).get? 0
      = some (prompt_of_candidates
          ((sm.agent_vos.map AgentVO.identifier).filter
            (fun x => x != previous_agent))) ∧
    (∀ k, k + 1 < (sm.selection_prompts llm previous_agent messages).length →
      (sm.selection_prompts llm previous_agent messages).get? (k + 1)
        = some (prompt_of_candidates
            ((sm.agent_vos.map AgentVO.identifier).filter
              (fun x => x != previous_agent
                && !((messages.map Message.name).contains (some x)))))) := by
  have hpos : 0 < ((sm.identify_loop llm previous_agent messages 0 5).2).length := by
    rw [SwarmMaster.identify_loop]
    by_cases h : sm.is_in_agents_list (llm 0) = true
    · rw [if_pos h]; simp
    · rw [if_neg h]; simp
  refine ⟨identify_loop_length_le sm llm previous_agent messages 5 0, ?_, ?_⟩
  · have hp := identify_loop_prompts sm llm previous_agent messages 5 0 0 hpos
    rw [SwarmMaster.selection_prompts, hp]
    rw [show (decide (0 + 0 > 0)) = false from rfl]
    rw [complete_content_attempt_one]
  · intro k hk
    have hk2 : k + 1 < ((sm.identify_loop llm previous_agent messages 0 5).2).length := hk
    have hp := identify_loop_prompts sm llm previous_agent messages 5 0 (k + 1) hk2
    rw [SwarmMaster.selection_prompts, hp]
    have hdec : (decide (0 + (k + 1) > 0)) = true := by
      rw [decide_eq_true_eq]
      omega
    rw [hdec]
    rw [complete_content_narrowed]

/-- C4 witness: after a first invalid reply, the attempt-2 prompt enumerates
only `"editor"` — `"writer"` is excluded both as preceding sender and as the
author of the history message. -/
theorem selection_pool_narrowing_witness :
    (demoSwarmMaster.selection_prompts
        (fun k => if k == 0 then "ghost" else "editor") "writer"
        [demoMessageFromWriter]).get? 1
      = some (prompt_of_candidates ["editor"]) := by
  have h := (selection_pool_narrowing demoSwarmMaster
      (fun k => if k == 0 then "ghost" else "editor") "writer"
      [demoMessageFromWriter]).2.2 0 (by decide)
  have hfil : ((demoSwarmMaster.agent_vos.map AgentVO.identifier).filter
      (fun x => x != "writer"
        && !(([demoMessageFromWriter].map Message.name).contains (some x))))
      = ["editor"] := by decide
  rw [hfil] at h
  exact h

/-- Combining the two tail rewrites of `_process_regular_response` into one
`updateLast`, with the flip folded into the rewriting function. -/
theorem routing_tail_rewrite (now : Timestamp) (b : Bool) (msgs : List Message) :
    updateLast (fun m => { m with datetime_value := now })
      (if b then
        updateLast (fun m => { m with pending_user_reply := some true }) msgs
      else msgs)
    = updateLast
        (fun m =>
          if b then { m with pending_user_reply := some true, datetime_value := now }
          else { m with datetime_value := now }) msgs := by
  cases b
  · simp
  · simp only [if_true]
    rw [updateLast_comp]

/-- C3: during orchestrator routing the tail message's `pending_user_reply`
is set to `true` exactly when the selected next agent equals the remembered
proxy and the tail role is not `"user"`; otherwise it keeps its previous
value (in particular it is not flipped when the tail role is `"user"`).  In
either case the tail timestamp is rewritten to the current time and no other
tail field changes. -/
theorem routing_sets_pending_user_reply_iff (sm : SwarmMaster)
    (llm : Nat → String) (now : Timestamp) (conversation : Conversation)
    (h : conversation.messages ≠ []) :
    (sm.process_regular_response llm now conversation).conversation.messages.getLast?
      = some { conversation.messages.getLast h with
          pending_user_reply :=
            if sm.remembered_proxy conversation.header.sender
                = sm.identify_next_agent llm conversation.header.sender
                    conversation.messages
              ∧ (conversation.messages.getLast h).role ≠ "user"
            then some true
            else (conversation.messages.getLast h).pending_user_reply
          datetime_value := now } := by
  have hlast := List.getLast?_eq_getLast conversation.messages h
  simp only [SwarmMaster.process_regular_response]
  rw [routing_tail_rewrite, updateLast_getLast?, hlast]
  simp only [Option.map_some]
  by_cases hcond :
      sm.remembered_proxy conversation.header.sender
        = sm.identify_next_agent llm conversation.header.sender
            conversation.messages
      ∧ (conversation.messages.getLast h).role ≠ "user"
  · rw [if_pos hcond]
    simp
    intro himp
    exact absurd (himp hcond.1) hcond.2
  · rw [if_neg hcond]
    simp
    intro h1 h2
    exact absurd ⟨h1, h2⟩ hcond

/-- C3 witness: the orchestrator that remembers `"writer"` as the proxy,
with the writer selected next and an assistant tail, flips
`pending_user_reply` to `true` and restamps the tail. -/
theorem routing_sets_pending_user_reply_iff_witness :
    (demoSwarmMasterProxyWriter.process_regular_response (fun _ => "writer") 99
        demoConversation).conversation.messages.getLast?
      = some { demoMessageFromWriter with
          pending_user_reply := some true, datetime_value := 99 } := by
  have h := routing_sets_pending_user_reply_iff demoSwarmMasterProxyWriter
    (fun _ => "writer") 99 demoConversation (by decide)
  rw [h]
  decide

/-- The combined tail rewrite touches only `pending_user_reply` and
`datetime_value`, whatever the flip condition evaluates to. -/
theorem routing_tail_fun_preserves (now : Timestamp) (b : Bool) (m : Message) :
    ((if b then { m with pending_user_reply := some true, datetime_value := now }
      else { m with datetime_value := now }) : Message).content = m.content
    ∧ ((if b then { m with pending_user_reply := some true, datetime_value := now }
      else { m with datetime_value := now }) : Message).role = m.role
    ∧ ((if b then { m with pending_user_reply := some true, datetime_value := now }
      else { m with datetime_value := now }) : Message).name = m.name := by
  cases b <;> simp

/-- The message list produced by `_process_regular_response` is exactly the
incoming list with the tail element rewritten, and the rewrite changes at
most `pending_user_reply` and `datetime_value`. -/
theorem process_regular_messages_shape (sm : SwarmMaster) (llm : Nat → String)
    (now : Timestamp) (c : Conversation) :
    ∃ f : Message → Message,
      (sm.process_regular_response llm now c).conversation.messages
        = updateLast f c.messages
      ∧ ∀ m, (f m).content = m.content ∧ (f m).role = m.role
          ∧ (f m).name = m.name := by
  refine ⟨fun m =>
    if (match c.messages.getLast? with
        | some tail =>
          (some (sm.remembered_proxy c.header.sender)
            == some (sm.identify_next_agent llm c.header.sender c.messages))
          && (tail.role != "user")
        | none => false)
    then { m with pending_user_reply := some true, datetime_value := now }
    else { m with datetime_value := now }, ?_, ?_⟩
  · simp only [SwarmMaster.process_regular_response]
    exact routing_tail_rewrite now _ c.messages
  · intro m
    exact routing_tail_fun_preserves now _ m

/-- C7: `process_response` leaves every pre-existing message except the tail
byte-for-byte in place (same index, hence same relative order), and the
message at the pre-existing tail index keeps its `content`, `role` and
`name` — only `pending_user_reply` and `datetime_value` may differ; the
list never shrinks. -/
theorem process_response_frame (sm : SwarmMaster) (llm : Nat → String)
    (now : Timestamp) (conversation : Conversation) :
    (∀ i, i + 1 < conversation.messages.length →
      (sm.process_response llm now conversation).conversation.messages.get? i
        = conversation.messages.get? i) ∧
    (∀ m0, conversation.messages.getLast? = some m0 →
      ∃ m1, (sm.process_response llm now conversation).conversation.messages.get?
          (conversation.messages.length - 1) = some m1
        ∧ m1.content = m0.content ∧ m1.role = m0.role ∧ m1.name = m0.name) ∧
    conversation.messages.length
      ≤ (sm.process_response llm now conversation).conversation.messages.length := by
  rcases hmsgs : conversation.messages with _ | ⟨m, rest⟩
  · refine ⟨?_, ?_, ?_⟩
    · intro i hi
      simp at hi
    · intro m0 h0
      simp at h0
    · simp
  · rcases rest with _ | ⟨m2, rest2⟩
    · -- exactly one pre-existing message
      have hstep : (sm.process_response llm now conversation)
          = sm.process_regular_response llm now
              { conversation with messages :=
                  if m.role == "user" then
                    [m] ++ [compose_initial_system_message now sm.name sm.agent_vos]
                  else [m] } := by
        simp only [SwarmMaster.process_response, hmsgs]
        simp
      obtain ⟨f, hf, hpres⟩ := process_regular_messages_shape sm llm now
        { conversation with messages :=
            if m.role == "user" then
              [m] ++ [compose_initial_system_message now sm.name sm.agent_vos]
            else [m] }
      rw [hstep]
      by_cases hrole : (m.role == "user") = true
      · rw [if_pos hrole] at hf ⊢
        refine ⟨?_, ?_, ?_⟩
        · intro i hi
          simp at hi
        · intro m0 h0
          simp only [List.getLast?_singleton, Option.some.injEq] at h0
          subst h0
          refine ⟨m, ?_, rfl, rfl, rfl⟩
          rw [hf]
          rfl
        · rw [hf]
          rw [updateLast_append_singleton f [m] _]
          simp
      · rw [if_neg hrole] at hf ⊢
        refine ⟨?_, ?_, ?_⟩
        · intro i hi
          simp at hi
        · intro m0 h0
          simp only [List.getLast?_singleton, Option.some.injEq] at h0
          subst h0
          refine ⟨f m, ?_, (hpres m).1, (hpres m).2.1, (hpres m).2.2⟩
          rw [hf]
          rfl
        · rw [hf]
          simp [updateLast]
    · -- at least two pre-existing messages: no framing branch fires
      have hstep : (sm.process_response llm now conversation)
          = sm.process_regular_response llm now conversation := by
        simp only [SwarmMaster.process_response, hmsgs]
        simp
        rw [← hmsgs]
      obtain ⟨f, hf, hpres⟩ := process_regular_messages_shape sm llm now conversation
      rw [hstep, hf, hmsgs]
      refine ⟨?_, ?_, ?_⟩
      · intro i hi
        exact updateLast_get?_lt f (m :: m2 :: rest2) i hi
      · intro m0 h0
        refine ⟨f m0, ?_, (hpres m0).1, (hpres m0).2.1, (hpres m0).2.2⟩
        rw [show (m :: m2 :: rest2).length - 1
              = (updateLast f (m :: m2 :: rest2)).length - 1 from by
            rw [updateLast_length]]
        rw [← List.getLast?_eq_get?]
        rw [updateLast_getLast?, h0]
        rfl
      · rw [updateLast_length]

/-- C7 witness: on a concrete two-message conversation the non-tail message
is untouched by routing. -/
theorem process_response_frame_witness :
    (demoSwarmMaster.process_response (fun _ => "editor") 7
        demoConversation).conversation.messages.get? 0
      = demoConversation.messages.get? 0 :=
  (process_response_frame demoSwarmMaster (fun _ => "editor") 7
    demoConversation).1 0 (by decide)

/-- C8: serializing a Conversation with `to_dict_conversation` and
deserializing with `to_conversation_from_dict` restores the header and every
message field for field. -/
theorem conversation_roundtrip (now : Timestamp) (c : Conversation) :
    to_conversation_from_dict now (to_dict_conversation c) = c := by
  unfold to_conversation_from_dict to_dict_conversation
  rw [header_roundtrip c.header, messages_roundtrip now c.messages]

/-- C5: exhausting the 5 retries on transient errors, or hitting a terminal
error, makes `_do_completion_call` return `None`; `_complete` then raises
(`AttributeError` on `None.choices`) instead of returning the empty string. -/
theorem completion_exhaustion_raises :
    do_completion_call (fun _ => CompletionCallResult.transient) = none
    ∧ do_completion_call (fun _ => CompletionCallResult.terminal) = none
    ∧ complete_without_tools (fun _ => CompletionCallResult.transient)
        = Except.error PyError.attributeError
    ∧ complete_without_tools (fun _ => CompletionCallResult.terminal)
        = Except.error PyError.attributeError :=
  ⟨rfl, rfl, rfl, rfl⟩

/-- C6: a tool-call name matching nothing in the table still triggers an
HTTP invocation — `_retrieve_http_request_values` returns the last visited
endpoint/method instead of the `(None, None)` its docstring promises — and a
tool-result message is appended for the call regardless. -/
theorem unmatched_tool_name_still_invokes_http :
    tools_table_defines demoToolsTable "missing_tool" = false
    ∧ retrieve_http_request_values demoToolsTable "missing_tool"
        = (some "http://alpha.example/api", some "get")
    ∧ execute_call_invocation demoToolsTable "missing_tool"
        = HttpInvocation.get "http://alpha.example/api"
    ∧ (tool_result_messages
        [{ id := "call_1"
           function := { name := "missing_tool", arguments := "" } }]).length
        = 1 :=
  ⟨by decide, by decide, by decide, rfl⟩

/-- C9: registry validation accepts a swarm exactly when it has one
Responsible and one Accountable agent (case-insensitive), and the
orchestrator's single-role lookup raises whenever the respective count is
not one. -/
theorem swarm_role_cardinality_validation (swarm_vo : SwarmVO) :
    (is_valid_swarm_vo_structure swarm_vo = true ↔
      (count_role swarm_vo.agents "r" = 1 ∧ count_role swarm_vo.agents "a" = 1))
    ∧ (count_role swarm_vo.agents "r" ≠ 1 →
      ∃ e, identify_single_role_agent swarm_vo.agents "r" = Except.error e)
    ∧ (count_role swarm_vo.agents "a" ≠ 1 →
      ∃ e, identify_single_role_agent swarm_vo.agents "a" = Except.error e) := by
  refine ⟨?_, identify_single_role_agent_error_of_count_ne_one _ _,
    identify_single_role_agent_error_of_count_ne_one _ _⟩
  unfold is_valid_swarm_vo_structure
  rw [swarm_role_totals_eq]
  constructor
  · intro hv
    simp only [beq_iff_eq] at hv
    split_ifs at hv with h1 h2 h3 h4
    simp at hv
    constructor <;> omega
  · rintro ⟨hr, ha⟩
    simp [hr, ha]

/-- C9 witness: two Responsible agents and no Accountable one fail
validation and make the Responsible lookup raise; the one-of-each swarm
validates. -/
theorem swarm_role_cardinality_validation_witness :
    is_valid_swarm_vo_structure badSwarmVO = false
    ∧ (∃ e, identify_single_role_agent badSwarmVO.agents "r" = Except.error e)
    ∧ is_valid_swarm_vo_structure goodSwarmVO = true := by
  refine ⟨by decide, ?_, by decide⟩
  exact (swarm_role_cardinality_validation badSwarmVO).2.1 (by decide)

/-- C10: a cache retrieve on a missing key, and any caught store/retrieve
failure of the underlying store, yield the empty dict (or a `0` store count)
to the caller; the handler wraps every error its body can raise, so nothing
escapes. -/
theorem redis_cache_degrades_to_empty (D : Type) (empty : D)
    (get_result : RedisGetResult) (loads : String → Except Unit D)
    (value_present : Bool) (dumps_result : Except Unit String)
    (set_result : Except Unit Nat) :
    (get_result = RedisGetResult.missing →
      RedisHandler.retrieve D empty get_result loads = empty)
    ∧ (∀ e, redis_retrieve_body D empty get_result loads = Except.error e →
      RedisHandler.retrieve D empty get_result loads = empty)
    ∧ (∀ e, redis_store_body value_present dumps_result set_result
        = Except.error e →
      RedisHandler.store value_present dumps_result set_result = 0) := by
  refine ⟨?_, ?_, ?_⟩
  · intro hg
    subst hg
    rfl
  · intro e he
    unfold RedisHandler.retrieve
    rw [he]
  · intro e he
    unfold RedisHandler.store
    rw [he]

/-- C10 witness: a missing key retrieves the empty value; a failing dump
stores zero fields. -/
theorem redis_cache_degrades_to_empty_witness :
    RedisHandler.retrieve Nat 0 RedisGetResult.missing (fun _ => Except.error ()) = 0
    ∧ RedisHandler.store true (Except.error ()) (Except.ok 1) = 0 := by
  have h := redis_cache_degrades_to_empty Nat 0 RedisGetResult.missing
    (fun _ => Except.error ()) true (Except.error ()) (Except.ok 1)
  exact ⟨h.1 rfl, h.2.2 () rfl⟩

end CoreAgents
